import Mathlib

/-!
Verification development for the BLIP-Cpp protocol engine.

Shallow embedding of:
* `MessageOut` and its nested `Contents` (src/blip/MessageOut.cc),
* the loopback WebSocket send/ack backpressure logic
  (include/blip_cpp/LoopbackProvider.hh),
* the GCD mailbox exception handling and channel manifest
  (src/util/GCDMailbox.cc, src/util/ChannelManifest.hh).

Bytes are modelled as `Nat`; buffers as `List Nat`.  The codec
(Codec.cc is an external collaborator, not part of this source set) is
modelled as an abstract record of operations over an opaque state type.
The counter fields of `MessageOut` are modelled as unbounded naturals:
MessageOut.hh is not among the sources, and the specification describes
them only as counters, without a width.  The loopback socket byte
counter is a C++ `std::atomic<size_t>`, so its arithmetic is taken
modulo `2 ^ 64`.
-/

namespace Blip

/-- Frame-flag bit constants from the spec (§3): low 3 bits are the type,
bit 3 is MoreComing, bit 4 Urgent, bit 5 NoReply, bit 6 Compressed. -/
def kTypeMask : Nat := 0x07

def kMoreComing : Nat := 0x08

def kUrgent : Nat := 0x10

def kNoReply : Nat := 0x20

def kCompressed : Nat := 0x40

/-- Message type codes (spec §3). -/
def kRequestType : Nat := 0

def kResponseType : Nat := 1

def kErrorType : Nat := 2

def kAckRequestType : Nat := 4

def kAckResponseType : Nat := 5

/-- `kDataBufferSize` from MessageOut.cc: size of the pull buffer handed
to a `MessageDataSource`. -/
def kDataBufferSize : Nat := 16384

/-- `Codec::kChecksumSize`: a frame checksum is 4 bytes (spec §4.1). -/
def kChecksumSize : Nat := 4

/-- `MessageProgress::State` from Message.hh. -/
inductive ProgressState
  | queued
  | sending
  | awaitingReply
  | receivingReply
  | complete
  | disconnected
deriving DecidableEq, Repr

/-- One scripted call to a `MessageDataSource` callback: `ret` is the
value the callback returns (`int`: number of bytes written, zero for
EOF, negative on error) and `filled` is what it wrote into the buffer. -/
structure SourceCall where
  ret : Int
  filled : List Nat
deriving DecidableEq, Repr

/-- `MessageOut::Contents`: the unsent remainder of the payload, the
unsent remainder of the pull buffer, and the data source (`none` once
dropped).  The data source is modelled by the sequence of results its
successive invocations produce; an exhausted script behaves as a source
returning 0 (EOF). -/
structure Contents where
  unsentPayload : List Nat
  unsentDataBuffer : List Nat
  dataSource : Option (List SourceCall)
deriving DecidableEq, Repr

namespace Contents

/-- `MessageOut::Contents::readFromDataSource`: invoke the data source
once; keep the first `ret` bytes it wrote (capped at the buffer size);
drop the source when it returned fewer bytes than the buffer size. -/
def readFromDataSource (c : Contents) : Contents :=
  match c.dataSource with
  | none => c
  | some [] => { c with unsentDataBuffer := [], dataSource := none }
  | some (call :: rest) =>
      { c with
        unsentDataBuffer := call.filled.take (min call.ret.toNat kDataBufferSize),
        dataSource := if call.ret < (kDataBufferSize : Int) then none else some rest }

/-- `MessageOut::Contents::dataToSend`: the next chunk of message body
to send, pulling from the data source when the payload and the pull
buffer are both exhausted.  Returns the updated contents and the chunk
(the C++ returns a reference to the corresponding slice field). -/
def dataToSend (c : Contents) : Contents × List Nat :=
  if !c.unsentPayload.isEmpty then (c, c.unsentPayload)
  else if c.unsentDataBuffer.isEmpty && c.dataSource.isSome then
    let c2 := c.readFromDataSource
    (c2, c2.unsentDataBuffer)
  else (c, c.unsentDataBuffer)

/-- Writing back the consumed chunk through the slice reference returned
by `dataToSend`: the chunk lives in `unsentPayload` when that is
non-empty, otherwise in `unsentDataBuffer`. -/
def consumeTo (c : Contents) (rest : List Nat) : Contents :=
  if c.unsentPayload.isEmpty then { c with unsentDataBuffer := rest }
  else { c with unsentPayload := rest }

/-- `MessageOut::Contents::hasMoreDataToSend`. -/
def hasMoreDataToSend (c : Contents) : Bool :=
  !c.unsentPayload.isEmpty || !c.unsentDataBuffer.isEmpty || c.dataSource.isSome

end Contents

/-- `MessageOut` state: flags and number are fixed at construction;
`contents` evolves as frames are emitted; the three counters are updated
by `nextFrameToSend` and `receivedAck`. -/
structure MessageOut where
  flags : Nat
  number : Nat
  contents : Contents
  bytesSent : Nat
  unackedBytes : Nat
  uncompressedBytesSent : Nat
deriving DecidableEq, Repr

/-- The `MessageOut` constructor: counters start at zero, the payload is
entirely unsent, the pull buffer is empty. -/
def MessageOut.fresh (flags number : Nat) (payload : List Nat)
    (dataSource : Option (List SourceCall)) : MessageOut :=
  ⟨flags, number, ⟨payload, [], dataSource⟩, 0, 0, 0⟩

namespace MessageOut

/-- `Message::type()`: the low three flag bits. -/
def type (m : MessageOut) : Nat := m.flags &&& kTypeMask

/-- `Message::isAck()`. -/
def isAck (m : MessageOut) : Bool :=
  m.type == kAckRequestType || m.type == kAckResponseType

/-- `Message::noReply()`. -/
def noReply (m : MessageOut) : Bool := (m.flags &&& kNoReply) != 0

/-- `Message::hasFlag(kCompressed)`. -/
def compressed (m : MessageOut) : Bool := (m.flags &&& kCompressed) != 0

/-- `MessageOut::receivedAck`: clamp `unackedBytes` down to
`bytesSent - byteCount`, but only when `byteCount <= bytesSent`. -/
def receivedAck (m : MessageOut) (byteCount : Nat) : MessageOut :=
  if byteCount ≤ m.bytesSent then
    { m with unackedBytes := min m.unackedBytes (m.bytesSent - byteCount) }
  else m

/-- `MessageOut::disconnected`, returning the progress state the call
emits, if any.  The guard is from MessageOut.cc.  Modelled from the
spec: `Message::disconnected` (Message.cc is not among the sources)
invokes the progress callback with state `Disconnected` (§5). -/
def disconnectedProgress (m : MessageOut) : Option ProgressState :=
  if m.type ≠ kRequestType ∨ m.noReply = true then none
  else some ProgressState.disconnected

end MessageOut

/-- Codec write modes (spec §4.1). -/
inductive Mode
  | raw
  | syncFlush
deriving DecidableEq, Repr

/-- The codec interface (spec §4.1; Codec.cc is external).  `write`
takes the codec state, the source chunk, and the free space of the
destination buffer, and returns the new state, the unconsumed remainder
of the source, and the bytes it appended to the destination.
`checksum` is the running CRC-32 value; `writeChecksum` emits its four
big-endian bytes. -/
structure CodecOps (σ : Type) where
  write : σ → List Nat → Nat → Mode → σ × List Nat × List Nat
  unflushedBytes : σ → Nat
  checksum : σ → Nat

/-- The 4 big-endian bytes of a CRC-32 value, as `Codec::writeChecksum`
appends them (spec §4.1 / §6). -/
def checksumBytes (v : Nat) : List Nat :=
  [v / 2 ^ 24 % 256, v / 2 ^ 16 % 256, v / 2 ^ 8 % 256, v % 256]

/-- The frame-filling loop of `MessageOut::nextFrameToSend`: repeatedly
pull a chunk via `dataToSend`, stop if it is empty, feed it through the
codec, and continue while at least 1024 bytes of the destination remain
free.  Arguments: fuel, codec state, contents, free space, accumulated
output, accumulated uncompressed-byte count.  `none` means the fuel ran
out before the loop finished. -/
def writeLoop {σ : Type} (codec : CodecOps σ) (mode : Mode) :
    Nat → σ → Contents → Nat → List Nat → Nat →
    Option (σ × Contents × List Nat × Nat)
  | 0, _, _, _, _, _ => none
  | fuel + 1, st, c, free, acc, unc =>
    let dc := c.dataToSend
    if dc.2.isEmpty then some (st, dc.1, acc, unc)
    else
      let w := codec.write st dc.2 free mode
      let c2 := dc.1.consumeTo w.2.1
      let free2 := free - w.2.2.length
      let acc2 := acc ++ w.2.2
      let unc2 := unc + (dc.2.length - w.2.1.length)
      if free2 ≥ 1024 then writeLoop codec mode fuel w.1 c2 free2 acc2 unc2
      else some (w.1, c2, acc2, unc2)

/-- The sync-flush marker handling of `nextFrameToSend`: in `SyncFlush`
mode, when any output was produced, assert that it ends with the four
bytes `00 00 FF FF` and remove them (`none` models the `Assert`
failing). -/
def stripMarker (mode : Mode) (out : List Nat) : Option (List Nat) :=
  if mode = Mode.syncFlush ∧ 0 < out.length then
    if 4 ≤ out.length ∧ out.drop (out.length - 4) = [0x00, 0x00, 0xFF, 0xFF]
    then some (out.take (out.length - 4))
    else none
  else some out

/-- The result of one `nextFrameToSend` call: the bytes written into the
destination buffer, the returned flags, and the `sendProgress` emission
(state and `uncompressedBytesSent`; acks emit no progress). -/
structure FrameResult where
  frame : List Nat
  outFlags : Nat
  progress : Option (ProgressState × Nat)
deriving DecidableEq, Repr

/-- The tail of `nextFrameToSend` after the write loop: check for
unflushed codec bytes (a `runtime_error` throw, modelled as `none`),
strip the sync-flush marker, append the checksum, update the counters,
and compute the returned flags and the progress state. -/
def finishFrame {σ : Type} (codec : CodecOps σ) (m : MessageOut) (mode : Mode)
    (q : σ × Contents × List Nat × Nat) : Option (σ × MessageOut × FrameResult) :=
  if codec.unflushedBytes q.1 > 0 then none
  else
    (stripMarker mode q.2.2.1).bind fun payload =>
      let frame := payload ++ checksumBytes (codec.checksum q.1)
      let unc2 := m.uncompressedBytesSent + q.2.2.2
      let more := q.2.1.hasMoreDataToSend
      let outFlags := if more then m.flags ||| kMoreComing else m.flags
      let state :=
        if more then ProgressState.sending
        else if m.noReply then ProgressState.complete
        else ProgressState.awaitingReply
      some (q.1,
        { m with
          contents := q.2.1,
          bytesSent := m.bytesSent + frame.length,
          unackedBytes := m.unackedBytes + frame.length,
          uncompressedBytesSent := unc2 },
        ⟨frame, outFlags, some (state, unc2)⟩)

/-- The codec mode `nextFrameToSend` uses: `SyncFlush` when the message
has the `Compressed` flag, `Raw` otherwise. -/
def frameMode (m : MessageOut) : Mode :=
  if m.compressed then Mode.syncFlush else Mode.raw

/-- `MessageOut::nextFrameToSend(codec, dst, outFlags)`.  `dstSize` is
the size of the destination buffer; `fuel` bounds the frame-filling
loop (`none` only when the fuel runs out or the code would throw).  An
ack bypasses the codec: the body is copied verbatim, `bytesSent` grows
by its size, the flags are returned unchanged, and no checksum and no
progress notification are produced. -/
def nextFrameToSend {σ : Type} (codec : CodecOps σ) (st : σ) (m : MessageOut)
    (dstSize fuel : Nat) : Option (σ × MessageOut × FrameResult) :=
  if m.isAck then
    let dc := m.contents.dataToSend
    some (st,
      { m with contents := dc.1, bytesSent := m.bytesSent + dc.2.length },
      ⟨dc.2, m.flags, none⟩)
  else
    (writeLoop codec (frameMode m) fuel st m.contents (dstSize - kChecksumSize) [] 0).bind
      (finishFrame codec m (frameMode m))

/-- One observable transition of a `MessageOut`: either an emitted frame
(a successful `nextFrameToSend` call) or a received ack. -/
inductive MsgStep {σ : Type} (codec : CodecOps σ) :
    σ × MessageOut → σ × MessageOut → Prop
  | frame (st st2 : σ) (m m2 : MessageOut) (dstSize fuel : Nat) (r : FrameResult)
      (h : nextFrameToSend codec st m dstSize fuel = some (st2, m2, r)) :
      MsgStep codec (st, m) (st2, m2)
  | ack (st : σ) (m : MessageOut) (byteCount : Nat) :
      MsgStep codec (st, m) (st, m.receivedAck byteCount)

/-- A trivial instantiation of the codec interface, used to exercise the
model on concrete inputs: it consumes its whole source and, in place of
deflate output, emits just the sync-flush marker. -/
def trivCodec : CodecOps Unit where
  write := fun _ src free _ =>
    ((), [], if src.isEmpty || free < 4 then [] else [0x00, 0x00, 0xFF, 0xFF])
  unflushedBytes := fun _ => 0
  checksum := fun _ => 0

end Blip

namespace Loopback

/-- `kSendBufferSize` from LoopbackProvider.hh: the 32 KiB send-buffer
high-water mark. -/
def kSendBufferSize : Nat := 32 * 1024

/-- `_bufferedBytes` is a `std::atomic<size_t>`; its arithmetic wraps at
`2 ^ 64`. -/
def sizeTMod : Nat := 2 ^ 64

/-- The observable `LoopbackWebSocket` state for the backpressure logic:
whether the socket is still connected and the unacknowledged buffered
byte count. -/
structure SocketState where
  connected : Bool
  bufferedBytes : Nat
deriving DecidableEq, Repr

/-- `LoopbackWebSocket::send`: add the message size to `_bufferedBytes`
and return whether the new value is still at or below
`kSendBufferSize`. -/
def SocketState.send (s : SocketState) (msgSize : Nat) : SocketState × Bool :=
  let newValue := (s.bufferedBytes + msgSize) % sizeTMod
  ({ s with bufferedBytes := newValue }, decide (newValue ≤ kSendBufferSize))

/-- `LoopbackWebSocket::_ack`: if no longer connected, do nothing;
otherwise subtract the message size from `_bufferedBytes` (unsigned
`size_t` arithmetic) and invoke the delegate's `onWebSocketWriteable`
exactly when the new value is at or below `kSendBufferSize` while
`newValue + msgSize` is above it.  The returned `Bool` is whether the
callback was invoked. -/
def SocketState.ackStep (s : SocketState) (msgSize : Nat) : SocketState × Bool :=
  if !s.connected then (s, false)
  else
    let newValue := (s.bufferedBytes + (sizeTMod - msgSize % sizeTMod)) % sizeTMod
    ({ s with bufferedBytes := newValue },
      decide (newValue ≤ kSendBufferSize) &&
        decide (kSendBufferSize < (newValue + msgSize) % sizeTMod))

end Loopback

namespace Mailbox

/-- What a queued thunk does when run: return normally, throw an
exception derived from `std::exception` (the only kind the
`catch (const std::exception &)` in `GCDMailbox::safelyCall` handles),
or throw anything else, which escapes the catch clause. -/
inductive ThunkOutcome
  | ok
  | throwsStd (what : String)
  | throwsNonStd
deriving DecidableEq, Repr

/-- An entry of the serial dispatch queue as built by
`GCDMailbox::enqueue`: the method name, the `ChannelManifest` captured
at enqueue time (already holding the `addEnqueueCall` record), and what
the thunk will do. -/
structure QueuedItem where
  methodName : String
  manifest : List String
  outcome : ThunkOutcome
deriving DecidableEq, Repr

/-- Observable events of draining a mailbox queue. -/
inductive MailboxEvent
  | executed (name : String)
  | caughtException (name what : String)
  | manifestDumped (entries : List String)
  | terminated
deriving DecidableEq, Repr

/-- The `ChannelManifest` ring limit (`_limit` in ChannelManifest.hh,
default 100). -/
def manifestLimit : Nat := 100

/-- Appending a record to a `ChannelManifest` list, popping the front
beyond the ring limit. -/
def addManifestEntry (m : List String) (e : String) : List String :=
  let m2 := m ++ [e]
  m2.drop (m2.length - manifestLimit)

/-- Running one wrapped block from `GCDMailbox::enqueue`: record the
execution in the captured manifest, run the thunk through
`GCDMailbox::safelyCall` (which catches `std::exception`, passes it to
the actor's `caughtException` hook and dumps the current manifest), and
report whether the drain can continue (an exception not derived from
`std::exception` escapes the catch and aborts). -/
def runItem (it : QueuedItem) : List MailboxEvent × Bool :=
  let manifest := addManifestEntry it.manifest it.methodName
  match it.outcome with
  | ThunkOutcome.ok => ([MailboxEvent.executed it.methodName], true)
  | ThunkOutcome.throwsStd w =>
      ([MailboxEvent.executed it.methodName,
        MailboxEvent.caughtException it.methodName w,
        MailboxEvent.manifestDumped manifest], true)
  | ThunkOutcome.throwsNonStd =>
      ([MailboxEvent.executed it.methodName, MailboxEvent.terminated], false)

/-- Draining the serial queue in FIFO order, stopping only when a thunk
aborts the process. -/
def drain : List QueuedItem → List MailboxEvent
  | [] => []
  | it :: rest =>
      let r := runItem it
      if r.2 then r.1 ++ drain rest else r.1

end Mailbox

namespace Blip

/-- A concrete `MessageOut` state with 10 bytes sent and 5 of them
unacknowledged. -/
def c2state : MessageOut := ⟨0, 1, ⟨[], [], none⟩, 10, 5, 0⟩

/-- Contents whose data source returns 5 (positive, but fewer than the
16384-byte buffer) on its first call. -/
def c3dropSrc : Contents := ⟨[], [], some [⟨5, [1, 2, 3, 4, 5, 6]⟩]⟩

/-- Contents whose data source fills the whole 16384-byte buffer on its
first call and signals EOF on the second. -/
def c3keepSrc : Contents :=
  ⟨[], [], some [⟨16384, List.replicate 16384 0⟩, ⟨0, []⟩]⟩

end Blip

namespace Blip

/-- Helper: a successful `nextFrameToSend` adds the same frame length to
`bytesSent` and `unackedBytes` (non-ack), or adds the body length to
`bytesSent` alone and leaves `unackedBytes` untouched (ack). -/
theorem nextFrame_counters {σ : Type} (codec : CodecOps σ) (st st2 : σ)
    (m m2 : MessageOut) (dstSize fuel : Nat) (r : FrameResult)
    (h : nextFrameToSend codec st m dstSize fuel = some (st2, m2, r)) :
    (m2.unackedBytes = m.unackedBytes ∧ ∃ L, m2.bytesSent = m.bytesSent + L) ∨
    (∃ L, m2.unackedBytes = m.unackedBytes + L ∧ m2.bytesSent = m.bytesSent + L) := by
  unfold nextFrameToSend at h
  split at h
  · left
    simp only [Option.some.injEq, Prod.mk.injEq] at h
    obtain ⟨-, hm, -⟩ := h
    subst hm
    exact ⟨rfl, _, rfl⟩
  · right
    rw [Option.bind_eq_some] at h
    obtain ⟨q, -, hf⟩ := h
    unfold finishFrame at hf
    split at hf
    · exact absurd hf (by simp)
    · rw [Option.bind_eq_some] at hf
      obtain ⟨payload, -, hsome⟩ := hf
      simp only [Option.some.injEq, Prod.mk.injEq] at hsome
      obtain ⟨-, hm, -⟩ := hsome
      subst hm
      exact ⟨_, rfl, rfl⟩

/-- Helper: each `MsgStep` preserves `unackedBytes ≤ bytesSent`. -/
theorem msgStep_preserves {σ : Type} (codec : CodecOps σ) {p q : σ × MessageOut}
    (hs : MsgStep codec p q) (h : p.2.unackedBytes ≤ p.2.bytesSent) :
    q.2.unackedBytes ≤ q.2.bytesSent := by
  cases hs with
  | frame st st2 m m2 dstSize fuel r hf =>
      simp only at h ⊢
      rcases nextFrame_counters codec st st2 m m2 dstSize fuel r hf with
        ⟨h1, L, h2⟩ | ⟨L, h1, h2⟩ <;> omega
  | ack st m c =>
      simp only [MessageOut.receivedAck] at h ⊢
      split
      · simp only
        omega
      · exact h

/-- C1: starting from a freshly constructed `MessageOut`, after any
sequence of `nextFrameToSend` and `receivedAck` calls, the counter
`unackedBytes` satisfies `0 ≤ unackedBytes ≤ bytesSent`. -/
theorem c1_unacked_invariant {σ : Type} (codec : CodecOps σ) (s0 : σ)
    (m0 : MessageOut) (p : σ × MessageOut)
    (h0 : m0.unackedBytes = 0) (h1 : m0.bytesSent = 0)
    (hr : Relation.ReflTransGen (MsgStep codec) (s0, m0) p) :
    0 ≤ p.2.unackedBytes ∧ p.2.unackedBytes ≤ p.2.bytesSent := by
  refine ⟨Nat.zero_le _, ?_⟩
  induction hr with
  | refl => simp [h0, h1]
  | tail _ hstep ihr => exact msgStep_preserves codec hstep ihr

/-- C1 witness: the invariant evaluated after a single `receivedAck`
call on a fresh message. -/
theorem c1_witness :
    0 ≤ ((MessageOut.fresh 0 1 [1, 2] none).receivedAck 0).unackedBytes ∧
      ((MessageOut.fresh 0 1 [1, 2] none).receivedAck 0).unackedBytes ≤
        ((MessageOut.fresh 0 1 [1, 2] none).receivedAck 0).bytesSent :=
  c1_unacked_invariant trivCodec () (MessageOut.fresh 0 1 [1, 2] none) _ rfl rfl
    (Relation.ReflTransGen.single (MsgStep.ack () (MessageOut.fresh 0 1 [1, 2] none) 0))

/-- C2 counterexample: with `bytesSent = 10`, `unackedBytes = 5` and a
cumulative count of 20 (greater than `bytesSent`), `receivedAck` leaves
`unackedBytes` at 5, while the claimed formula
`min(unackedBytes, bytesSent - cumulativeBytes)` gives 0. -/
theorem c2_counterexample :
    (c2state.receivedAck 20).unackedBytes ≠
      min c2state.unackedBytes (c2state.bytesSent - 20) := by decide

/-- C2 amended: when `c ≤ bytesSent`, `receivedAck c` sets
`unackedBytes` to `min(unackedBytes, bytesSent - c)`; when
`c > bytesSent` it changes nothing; in all cases it never increases
`unackedBytes`. -/
theorem c2_receivedAck_clamp (m : MessageOut) (c : Nat) :
    (c ≤ m.bytesSent →
      (m.receivedAck c).unackedBytes = min m.unackedBytes (m.bytesSent - c)) ∧
    (m.bytesSent < c → m.receivedAck c = m) ∧
    (m.receivedAck c).unackedBytes ≤ m.unackedBytes := by
  unfold MessageOut.receivedAck
  split
  · next hle => exact ⟨fun _ => rfl, fun hlt => absurd hle (by omega), min_le_left _ _⟩
  · next hgt => exact ⟨fun hle => absurd hle hgt, fun _ => rfl, le_refl _⟩

/-- C2 witness: the clamping equation evaluated at a concrete state with
`c = 4 ≤ bytesSent = 10`. -/
theorem c2_witness :
    (c2state.receivedAck 4).unackedBytes =
      min c2state.unackedBytes (c2state.bytesSent - 4) :=
  (c2_receivedAck_clamp c2state 4).1 (by decide)

/-- C3 counterexample: a data source call that returns 5 (a positive
byte count) nevertheless drops the source, because 5 is fewer than the
16384-byte buffer size. -/
theorem c3_counterexample :
    c3dropSrc.dataSource = some [⟨5, [1, 2, 3, 4, 5, 6]⟩] ∧
      (0 : Int) < 5 ∧ c3dropSrc.readFromDataSource.dataSource = none := by decide

/-- C3 amended: `readFromDataSource` drops the data source exactly when
the call returns fewer bytes than the 16384-byte buffer size (zero,
negative, and short positive reads included); it keeps the first `ret`
bytes the call wrote. -/
theorem c3_source_drop (c : Contents) (call : SourceCall)
    (rest : List SourceCall) (h : c.dataSource = some (call :: rest)) :
    (c.readFromDataSource.dataSource = none ↔
        call.ret < (kDataBufferSize : Int)) ∧
    c.readFromDataSource.unsentDataBuffer
      = call.filled.take (min call.ret.toNat kDataBufferSize) := by
  obtain ⟨up, ub, ds⟩ := c
  simp only at h
  subst h
  constructor
  · simp only [Contents.readFromDataSource]
    split
    · next hlt => simpa using hlt
    · next hge => simpa using hge
  · simp [Contents.readFromDataSource]

/-- C3 witness: a full 16384-byte read does not drop the source. -/
theorem c3_witness :
    (c3keepSrc.readFromDataSource.dataSource = none ↔
      (16384 : Int) < (kDataBufferSize : Int)) :=
  (c3_source_drop c3keepSrc ⟨16384, List.replicate 16384 0⟩ [⟨0, []⟩] rfl).1

/-- C4 counterexample: a request sent with `NoReply` gets no progress
callback from `MessageOut::disconnected`, contrary to the claim that
every flag combination produces a `Disconnected` notification. -/
theorem c4_counterexample :
    (MessageOut.fresh kNoReply 1 [] none).disconnectedProgress ≠
      some ProgressState.disconnected := by decide

/-- C4 amended: on disconnect a `MessageOut` invokes its progress
callback with state `Disconnected` exactly when it is a request not
marked `NoReply`; `NoReply` requests and non-request messages get no
callback. -/
theorem c4_disconnected_filter (m : MessageOut) :
    (m.type = kRequestType ∧ m.noReply = false →
      m.disconnectedProgress = some ProgressState.disconnected) ∧
    (m.type ≠ kRequestType ∨ m.noReply = true →
      m.disconnectedProgress = none) := by
  unfold MessageOut.disconnectedProgress
  split
  · next hcond =>
      refine ⟨fun hreq => ?_, fun _ => rfl⟩
      rcases hcond with hne | htrue
      · exact absurd hreq.1 hne
      · rw [hreq.2] at htrue
        exact absurd htrue (by decide)
  · next hcond =>
      push_neg at hcond
      refine ⟨fun _ => rfl, fun hor => ?_⟩
      rcases hor with hne | htrue
      · exact absurd hcond.1 hne
      · exact absurd htrue hcond.2

/-- C4 witness: a plain request (no `NoReply`) does get the
`Disconnected` notification. -/
theorem c4_witness :
    (MessageOut.fresh 0 1 [] none).disconnectedProgress =
      some ProgressState.disconnected :=
  (c4_disconnected_filter (MessageOut.fresh 0 1 [] none)).1 ⟨by decide, by decide⟩

/-- C7: for an ack message, `nextFrameToSend` copies the varint ack body
into the destination without the codec and without a checksum, adds the
body size to `bytesSent`, returns the flags unchanged, emits no
progress, and leaves the codec state, `unackedBytes`, and
`uncompressedBytesSent` unchanged. -/
theorem c7_ack_bypass {σ : Type} (codec : CodecOps σ) (st : σ) (m : MessageOut)
    (dstSize fuel : Nat) (hack : m.isAck = true) :
    ∃ m2, nextFrameToSend codec st m dstSize fuel
        = some (st, m2, ⟨(m.contents.dataToSend).2, m.flags, none⟩) ∧
      m2.bytesSent = m.bytesSent + (m.contents.dataToSend).2.length ∧
      m2.unackedBytes = m.unackedBytes ∧
      m2.uncompressedBytesSent = m.uncompressedBytesSent ∧
      m2.flags = m.flags ∧ m2.number = m.number := by
  have hmain : nextFrameToSend codec st m dstSize fuel
      = some (st,
          { m with
            contents := (m.contents.dataToSend).1,
            bytesSent := m.bytesSent + (m.contents.dataToSend).2.length },
          ⟨(m.contents.dataToSend).2, m.flags, none⟩) := by
    unfold nextFrameToSend
    rw [if_pos hack]
  exact ⟨_, hmain, rfl, rfl, rfl, rfl, rfl⟩

/-- C7 witness: the ack bypass evaluated on a concrete `AckRequest`
message with body `[200, 1]`. -/
theorem c7_witness :
    ∃ m2, nextFrameToSend trivCodec () (MessageOut.fresh 4 3 [200, 1] none) 100 1
        = some ((), m2,
            ⟨((MessageOut.fresh 4 3 [200, 1] none).contents.dataToSend).2,
              (MessageOut.fresh 4 3 [200, 1] none).flags, none⟩) ∧
      m2.bytesSent = (MessageOut.fresh 4 3 [200, 1] none).bytesSent +
        ((MessageOut.fresh 4 3 [200, 1] none).contents.dataToSend).2.length ∧
      m2.unackedBytes = (MessageOut.fresh 4 3 [200, 1] none).unackedBytes ∧
      m2.uncompressedBytesSent =
        (MessageOut.fresh 4 3 [200, 1] none).uncompressedBytesSent ∧
      m2.flags = (MessageOut.fresh 4 3 [200, 1] none).flags ∧
      m2.number = (MessageOut.fresh 4 3 [200, 1] none).number :=
  c7_ack_bypass trivCodec () (MessageOut.fresh 4 3 [200, 1] none) 100 1 (by decide)

/-- Helper: decomposition of a successful non-ack `nextFrameToSend`
call into its write loop, marker stripping, checksum, counter updates,
returned flags, and progress emission. -/
theorem nextFrame_nonAck {σ : Type} (codec : CodecOps σ) (st st2 : σ)
    (m m2 : MessageOut) (dstSize fuel : Nat) (r : FrameResult)
    (hack : m.isAck = false)
    (h : nextFrameToSend codec st m dstSize fuel = some (st2, m2, r)) :
    ∃ q payload,
      writeLoop codec (frameMode m) fuel st m.contents (dstSize - kChecksumSize) [] 0
        = some q ∧
      stripMarker (frameMode m) q.2.2.1 = some payload ∧
      st2 = q.1 ∧
      r.frame = payload ++ checksumBytes (codec.checksum q.1) ∧
      m2 = { m with
             contents := q.2.1,
             bytesSent := m.bytesSent + r.frame.length,
             unackedBytes := m.unackedBytes + r.frame.length,
             uncompressedBytesSent := m.uncompressedBytesSent + q.2.2.2 } ∧
      r.outFlags
        = (if q.2.1.hasMoreDataToSend then m.flags ||| kMoreComing else m.flags) ∧
      r.progress = some
        ((if q.2.1.hasMoreDataToSend then ProgressState.sending
          else if m.noReply then ProgressState.complete
          else ProgressState.awaitingReply),
          m.uncompressedBytesSent + q.2.2.2) := by
  unfold nextFrameToSend at h
  rw [if_neg (by simp [hack])] at h
  rw [Option.bind_eq_some] at h
  obtain ⟨q, hw, hf⟩ := h
  unfold finishFrame at hf
  split at hf
  · exact absurd hf (by simp)
  · rw [Option.bind_eq_some] at hf
    obtain ⟨payload, hs, hsome⟩ := hf
    simp only [Option.some.injEq, Prod.mk.injEq] at hsome
    obtain ⟨hst, hm, hr⟩ := hsome
    subst hst
    subst hm
    subst hr
    exact ⟨q, payload, hw, hs, rfl, rfl, rfl, rfl, rfl⟩

/-- Helper: a natural with a bit set by `|||` has a nonzero `&&&` with
that bit. -/
theorem or_and_bit (x : Nat) : (x ||| kMoreComing) &&& kMoreComing = kMoreComing := by
  apply Nat.eq_of_testBit_eq
  intro i
  simp [kMoreComing, Nat.testBit_and, Nat.testBit_or]
  tauto

/-- C5: for a non-ack compressed message, a successful `nextFrameToSend`
strips the trailing `00 00 FF FF` sync-flush marker from the deflate
output whenever any output was produced, and the frame ends with the
4-byte checksum; when no output was produced nothing is stripped and
the frame is just the checksum. -/
theorem c5_compressed_strip {σ : Type} (codec : CodecOps σ) (st st2 : σ)
    (m m2 : MessageOut) (dstSize fuel : Nat) (r : FrameResult)
    (hack : m.isAck = false) (hcomp : m.compressed = true)
    (h : nextFrameToSend codec st m dstSize fuel = some (st2, m2, r)) :
    ∃ q, writeLoop codec Mode.syncFlush fuel st m.contents (dstSize - kChecksumSize) [] 0
        = some q ∧
      (q.2.2.1 ≠ [] →
        q.2.2.1.drop (q.2.2.1.length - 4) = [0x00, 0x00, 0xFF, 0xFF] ∧
        r.frame = q.2.2.1.take (q.2.2.1.length - 4)
          ++ checksumBytes (codec.checksum q.1)) ∧
      (q.2.2.1 = [] → r.frame = checksumBytes (codec.checksum q.1)) := by
  have hmode : frameMode m = Mode.syncFlush := by
    unfold frameMode
    rw [if_pos hcomp]
  obtain ⟨q, payload, hw, hs, -, hframe, -, -, -⟩ :=
    nextFrame_nonAck codec st st2 m m2 dstSize fuel r hack h
  rw [hmode] at hw hs
  refine ⟨q, hw, ?_, ?_⟩
  · intro hne
    unfold stripMarker at hs
    rw [if_pos ⟨rfl, List.length_pos.mpr hne⟩] at hs
    split at hs
    · next hcheck =>
        simp only [Option.some.injEq] at hs
        subst hs
        exact ⟨hcheck.2, hframe⟩
    · exact absurd hs (by simp)
  · intro hnil
    unfold stripMarker at hs
    rw [hnil] at hs
    simp only [List.length_nil, lt_irrefl, and_false, if_false, Option.some.injEq] at hs
    subst hs
    simpa [hnil] using hframe

/-- C5 witness: the strip behaviour evaluated on a concrete compressed
message whose (trivial) codec output is exactly the sync-flush
marker. -/
theorem c5_witness :
    ∃ q, writeLoop trivCodec Mode.syncFlush 5 ()
        (MessageOut.fresh kCompressed 1 [1, 2, 3] none).contents
        (2000 - kChecksumSize) [] 0 = some q ∧
      (q.2.2.1 ≠ [] →
        q.2.2.1.drop (q.2.2.1.length - 4) = [0x00, 0x00, 0xFF, 0xFF] ∧
        FrameResult.frame ⟨[0, 0, 0, 0], 64, some (ProgressState.awaitingReply, 3)⟩
          = q.2.2.1.take (q.2.2.1.length - 4)
            ++ checksumBytes (trivCodec.checksum q.1)) ∧
      (q.2.2.1 = [] →
        FrameResult.frame ⟨[0, 0, 0, 0], 64, some (ProgressState.awaitingReply, 3)⟩
          = checksumBytes (trivCodec.checksum q.1)) :=
  c5_compressed_strip trivCodec () ()
    (MessageOut.fresh kCompressed 1 [1, 2, 3] none)
    ⟨kCompressed, 1, ⟨[], [], none⟩, 4, 4, 3⟩ 2000 5
    ⟨[0, 0, 0, 0], 64, some (ProgressState.awaitingReply, 3)⟩
    (by decide) (by decide) (by decide)

/-- C6: for a non-ack message whose own flags do not carry `MoreComing`,
a successful `nextFrameToSend` returns flags with `MoreComing` set iff
the contents still have data to send after the frame was filled, with
progress state `Sending` in that case; otherwise the flags are returned
unchanged and the state is `Complete` when `NoReply` is set and
`AwaitingReply` when it is not. -/
theorem c6_flags_progress {σ : Type} (codec : CodecOps σ) (st st2 : σ)
    (m m2 : MessageOut) (dstSize fuel : Nat) (r : FrameResult)
    (hack : m.isAck = false) (hmc : m.flags &&& kMoreComing = 0)
    (h : nextFrameToSend codec st m dstSize fuel = some (st2, m2, r)) :
    ((r.outFlags &&& kMoreComing ≠ 0) ↔ m2.contents.hasMoreDataToSend = true) ∧
    (m2.contents.hasMoreDataToSend = true →
      r.outFlags = m.flags ||| kMoreComing ∧
      r.progress = some (ProgressState.sending, m2.uncompressedBytesSent)) ∧
    (m2.contents.hasMoreDataToSend = false →
      r.outFlags = m.flags ∧
      (m.noReply = true →
        r.progress = some (ProgressState.complete, m2.uncompressedBytesSent)) ∧
      (m.noReply = false →
        r.progress = some (ProgressState.awaitingReply, m2.uncompressedBytesSent))) := by
  obtain ⟨q, payload, hw, hs, -, hframe, hm, hflags, hprog⟩ :=
    nextFrame_nonAck codec st st2 m m2 dstSize fuel r hack h
  have hcont : m2.contents = q.2.1 := by rw [hm]
  have hunc : m2.uncompressedBytesSent = m.uncompressedBytesSent + q.2.2.2 := by rw [hm]
  rw [hcont, hunc]
  cases hmore : q.2.1.hasMoreDataToSend with
  | true =>
      rw [hmore] at hflags hprog
      simp only [if_true] at hflags hprog
      refine ⟨?_, fun _ => ⟨hflags, hprog⟩, fun hfalse => by simp at hfalse⟩
      rw [hflags, or_and_bit]
      simp [kMoreComing]
  | false =>
      rw [hmore] at hflags hprog
      simp at hflags hprog
      refine ⟨?_, fun htrue => by simp at htrue, fun _ => ⟨hflags, ?_, ?_⟩⟩
      · rw [hflags]
        simp [hmc]
      · intro hnr
        rw [hprog, hnr]
        simp
      · intro hnr
        rw [hprog, hnr]
        simp

/-- C6 witness: a concrete uncompressed request with a 3-byte body that
fits in one frame: no more data afterwards, flags unchanged,
`AwaitingReply` emitted. -/
theorem c6_witness :
    ((FrameResult.outFlags ⟨[0, 0, 255, 255, 0, 0, 0, 0], 0,
          some (ProgressState.awaitingReply, 3)⟩ &&& Blip.kMoreComing ≠ 0) ↔
      Contents.hasMoreDataToSend ⟨[], [], none⟩ = true) ∧
    (Contents.hasMoreDataToSend ⟨[], [], none⟩ = true →
      FrameResult.outFlags ⟨[0, 0, 255, 255, 0, 0, 0, 0], 0,
          some (ProgressState.awaitingReply, 3)⟩ = 0 ||| kMoreComing ∧
      FrameResult.progress ⟨[0, 0, 255, 255, 0, 0, 0, 0], 0,
          some (ProgressState.awaitingReply, 3)⟩
        = some (ProgressState.sending, 3)) ∧
    (Contents.hasMoreDataToSend ⟨[], [], none⟩ = false →
      FrameResult.outFlags ⟨[0, 0, 255, 255, 0, 0, 0, 0], 0,
          some (ProgressState.awaitingReply, 3)⟩ = 0 ∧
      ((MessageOut.fresh 0 1 [9, 8, 7] none).noReply = true →
        FrameResult.progress ⟨[0, 0, 255, 255, 0, 0, 0, 0], 0,
            some (ProgressState.awaitingReply, 3)⟩
          = some (ProgressState.complete, 3)) ∧
      ((MessageOut.fresh 0 1 [9, 8, 7] none).noReply = false →
        FrameResult.progress ⟨[0, 0, 255, 255, 0, 0, 0, 0], 0,
            some (ProgressState.awaitingReply, 3)⟩
          = some (ProgressState.awaitingReply, 3))) :=
  c6_flags_progress trivCodec () () (MessageOut.fresh 0 1 [9, 8, 7] none)
    ⟨0, 1, ⟨[], [], none⟩, 8, 8, 3⟩ 2000 5
    ⟨[0, 0, 255, 255, 0, 0, 0, 0], 0, some (ProgressState.awaitingReply, 3)⟩
    (by decide) (by decide) (by decide)

end Blip

namespace Loopback

/-- C8: `LoopbackWebSocket::send` returns `false` exactly when the
buffered unacknowledged byte count after adding the message size
exceeds the 32 KiB `kSendBufferSize` high-water mark. -/
theorem c8_send_backpressure (s : SocketState) (n : Nat)
    (hof : s.bufferedBytes + n < sizeTMod) :
    ((s.send n).2 = false ↔ kSendBufferSize < s.bufferedBytes + n) := by
  unfold SocketState.send
  rw [Nat.mod_eq_of_lt hof]
  simp

/-- C8 witness: sending one byte while exactly 32768 bytes are already
buffered makes `send` return `false`. -/
theorem c8_witness :
    (((⟨true, 32768⟩ : SocketState).send 1).2 = false ↔
      kSendBufferSize < 32768 + 1) :=
  c8_send_backpressure ⟨true, 32768⟩ 1 (by decide)

/-- C10: `_ack` invokes `onWebSocketWriteable` exactly when the socket
is still connected and subtracting the acked size takes the buffered
count from strictly above `kSendBufferSize` to at or below it; when no
longer connected, nothing changes and no callback fires. -/
theorem c10_ack_threshold (s : SocketState) (n : Nat)
    (hb : s.bufferedBytes < sizeTMod) (hn : n < sizeTMod) :
    ((s.ackStep n).2 = true ↔
      s.connected = true ∧ (s.ackStep n).1.bufferedBytes ≤ kSendBufferSize ∧
        kSendBufferSize < s.bufferedBytes) ∧
    (s.connected = false →
      (s.ackStep n).1 = s ∧ (s.ackStep n).2 = false) := by
  unfold SocketState.ackStep
  cases hc : s.connected with
  | false => simp
  | true =>
      have hkey : (((s.bufferedBytes + (sizeTMod - n % sizeTMod)) % sizeTMod) + n) % sizeTMod
          = s.bufferedBytes := by
        rw [Nat.mod_eq_of_lt hn, Nat.mod_add_mod, Nat.add_assoc,
          Nat.sub_add_cancel (Nat.le_of_lt hn), Nat.add_mod_right,
          Nat.mod_eq_of_lt hb]
      simp [hkey]

/-- C10 witness: acking 10000 bytes while 40000 are buffered on a
connected socket crosses the 32768-byte threshold and fires the
writeable callback. -/
theorem c10_witness :
    (((⟨true, 40000⟩ : SocketState).ackStep 10000).2 = true ↔
      (⟨true, 40000⟩ : SocketState).connected = true ∧
        ((⟨true, 40000⟩ : SocketState).ackStep 10000).1.bufferedBytes ≤ kSendBufferSize ∧
        kSendBufferSize < (⟨true, 40000⟩ : SocketState).bufferedBytes) ∧
    ((⟨true, 40000⟩ : SocketState).connected = false →
      ((⟨true, 40000⟩ : SocketState).ackStep 10000).1 = (⟨true, 40000⟩ : SocketState) ∧
        ((⟨true, 40000⟩ : SocketState).ackStep 10000).2 = false) :=
  c10_ack_threshold ⟨true, 40000⟩ 10000 (by decide) (by decide)

end Loopback

namespace Mailbox

/-- A queue whose first thunk throws something not derived from
`std::exception`. -/
def c9badQueue : List QueuedItem :=
  [⟨"a", [], ThunkOutcome.throwsNonStd⟩, ⟨"b", [], ThunkOutcome.ok⟩]

/-- A queue whose first thunk throws a `std::exception`. -/
def c9stdQueue : List QueuedItem :=
  [⟨"f", ["enqueue f"], ThunkOutcome.throwsStd "boom"⟩, ⟨"g", [], ThunkOutcome.ok⟩]

/-- C9 counterexample: a thunk throwing an exception not derived from
`std::exception` escapes the `catch (const std::exception &)` in
`GCDMailbox::safelyCall`: no `caughtException` hook runs, no manifest is
dumped, and the queued thunk behind it is never executed. -/
theorem c9_counterexample :
    drain c9badQueue = [MailboxEvent.executed "a", MailboxEvent.terminated] ∧
    MailboxEvent.executed "b" ∉ drain c9badQueue := by decide

/-- C9 amended: when every thunk failure is a `std::exception`, the
drain executes every queued thunk in FIFO order, each throwing thunk
has the exception passed to the actor's `caughtException` hook and the
current channel manifest dumped, and draining continues past it. -/
theorem c9_std_exceptions_handled (q : List QueuedItem)
    (h : ∀ it ∈ q, it.outcome ≠ ThunkOutcome.throwsNonStd) :
    drain q = q.flatMap (fun it => (runItem it).1) ∧
    ∀ it ∈ q, MailboxEvent.executed it.methodName ∈ drain q ∧
      ∀ w, it.outcome = ThunkOutcome.throwsStd w →
        MailboxEvent.caughtException it.methodName w ∈ drain q ∧
        MailboxEvent.manifestDumped (addManifestEntry it.manifest it.methodName)
          ∈ drain q := by
  have hflat : ∀ (l : List QueuedItem),
      (∀ it ∈ l, it.outcome ≠ ThunkOutcome.throwsNonStd) →
      drain l = l.flatMap (fun it => (runItem it).1) := by
    intro l
    induction l with
    | nil => intro _; rfl
    | cons it rest ih =>
        intro hl
        have hcont : (runItem it).2 = true := by
          cases hout : it.outcome with
          | ok => simp [runItem, hout]
          | throwsStd w => simp [runItem, hout]
          | throwsNonStd => exact absurd hout (hl it (by simp))
        simp only [drain]
        rw [if_pos hcont, ih (fun x hx => hl x (List.mem_cons_of_mem _ hx))]
        simp [List.flatMap_cons]
  have hdq := hflat q h
  refine ⟨hdq, fun it hit => ?_⟩
  rw [hdq]
  refine ⟨List.mem_flatMap.mpr ⟨it, hit, ?_⟩,
    fun w hw => ⟨List.mem_flatMap.mpr ⟨it, hit, ?_⟩,
      List.mem_flatMap.mpr ⟨it, hit, ?_⟩⟩⟩
  · cases hout : it.outcome <;> simp [runItem, hout]
  · simp [runItem, hw]
  · simp [runItem, hw]

/-- C9 witness: the amended property evaluated on a concrete queue
where the first thunk throws a `std::exception`. -/
theorem c9_witness :
    drain c9stdQueue = c9stdQueue.flatMap (fun it => (runItem it).1) :=
  (c9_std_exceptions_handled c9stdQueue (by decide)).1

end Mailbox
